import Mathlib

/-!
Verification of the poker-vision matching engine (src/vision.go) against its
natural-language specification.

The Go code is shallowly embedded below.  Images (`image.Image`) are modelled
as a bounds rectangle plus a total pixel function returning the 16-bit channel
values produced by Go's `color.Color.RGBA()` (each channel in `0..65535`;
Go's `At` is total, returning a zero color outside the bounds, so a total
function is faithful).  External collaborators (the file loader together with
`png.Decode`, the `gosseract` OCR engine, and `resize.Resize`) are passed in
explicitly as a `Collab` record, mirroring their treatment as opaque
capabilities in the spec.  Go strings in the reference specs are ASCII, so
`String`/`List Char` operations coincide with Go's byte slicing on every
input a claim touches.
-/

namespace PokerVision

/-- One pixel as seen through Go's `color.Color.RGBA()`: four channel values,
each in `0..65535` (alpha-premultiplied in Go; none of the embedded code
inspects `a`). -/
structure Rgba where
  r : Nat
  g : Nat
  b : Nat
  a : Nat
deriving DecidableEq

/-- The 16-bit view of a Go `color.RGBA{r, g, b, a}` value: `RGBA()` returns
`c | c << 8 = 257 * c` for each 8-bit channel `c`. -/
def rgba8 (r g b a : Nat) : Rgba :=
  ⟨257 * r, 257 * g, 257 * b, 257 * a⟩

/-- An already-decoded image: bounds `[minX, minX+w) × [minY, minY+h)` plus a
total pixel function (`At` composed with `RGBA()`). -/
structure Img where
  minX : Int
  minY : Int
  w : Nat
  h : Nat
  px : Int → Int → Rgba

/-- The all-zero 1×0 image stand-in for Go's nil/zero image values that are
never read (e.g. `srcImg` when the source is a pixel). -/
def emptyImg : Img :=
  ⟨0, 0, 0, 0, fun _ _ => ⟨0, 0, 0, 0⟩⟩

/-- Replace the color stored at one coordinate of an image, keeping bounds. -/
def setPx (img : Img) (x y : Int) (c : Rgba) : Img :=
  { img with px := fun i j => if i = x ∧ j = y then c else img.px i j }

/-- Shift an image's bounds by `(dx, dy)`, carrying its pixel content along:
the pixel at offset `(i, j)` from the new origin is the pixel at offset
`(i, j)` from the old origin. -/
def translate (img : Img) (dx dy : Int) : Img :=
  { minX := img.minX + dx
    minY := img.minY + dy
    w := img.w
    h := img.h
    px := fun i j => img.px (i - dx) (j - dy) }

/-- `strings.HasPrefix` on character lists. -/
def listStartsWith : List Char → List Char → Bool
  | _, [] => true
  | [], _ :: _ => false
  | c :: cs, d :: ds => c == d && listStartsWith cs ds

/-- `strings.HasPrefix` on strings. -/
def strStartsWith (s pre : String) : Bool :=
  listStartsWith s.data pre.data

/-- Go byte-slice `s[n:]` (the embedded code only slices ASCII data, where
bytes and characters coincide). -/
def strDrop (s : String) (n : Nat) : String :=
  String.mk (s.data.drop n)

/-- `strings.Split(args, ",")`: the list of segments between commas
(`Split("", ",") = [""]`). -/
def splitComma : List Char → List (List Char)
  | [] => [[]]
  | c :: cs =>
    if c = ',' then [] :: splitComma cs
    else
      match splitComma cs with
      | t :: ts => (c :: t) :: ts
      | [] => [[c]]

/-- Value of one hex digit, as accepted by Go's `encoding/hex`. -/
def hexDigitVal (c : Char) : Option Nat :=
  if '0' ≤ c ∧ c ≤ '9' then some (c.toNat - 48)
  else if 'a' ≤ c ∧ c ≤ 'f' then some (c.toNat - 87)
  else if 'A' ≤ c ∧ c ≤ 'F' then some (c.toNat - 55)
  else none

/-- `hex.DecodeString`: pairs of hex digits to bytes; odd length or a
non-hex character is an error (the Go caller only checks `err != nil`). -/
def hexDecodeChars : List Char → Option (List Nat)
  | [] => some []
  | [_] => none
  | c1 :: c2 :: rest =>
    match hexDigitVal c1, hexDigitVal c2, hexDecodeChars rest with
    | some hi, some lo, some bs => some ((16 * hi + lo) :: bs)
    | _, _, _ => none

/-- `hex.DecodeString` on a string. -/
def hexDecode (s : String) : Option (List Nat) :=
  hexDecodeChars s.data

/-- Numeric value of a digit string. -/
def digitsVal (ds : List Char) : Nat :=
  ds.foldl (fun acc c => 10 * acc + (c.toNat - 48)) 0

/-- `strconv.Atoi`: optional sign, then a nonempty run of digits; anything
else (including 64-bit overflow) is an error. -/
def goAtoiChars (s : List Char) : Option Int :=
  match s with
  | '-' :: rest =>
    if rest ≠ [] ∧ rest.all Char.isDigit then
      if digitsVal rest ≤ 2 ^ 63 then some (-(digitsVal rest : Int)) else none
    else none
  | '+' :: rest =>
    if rest ≠ [] ∧ rest.all Char.isDigit then
      if digitsVal rest < 2 ^ 63 then some (digitsVal rest : Int) else none
    else none
  | _ =>
    if s ≠ [] ∧ s.all Char.isDigit then
      if digitsVal s < 2 ^ 63 then some (digitsVal s : Int) else none
    else none

/-- Whiteness test from `compareImagesMonochrome`: all three channels carry
the maximal 16-bit value. -/
def isWhite (p : Rgba) : Bool :=
  p.r == 65535 && p.g == 65535 && p.b == 65535

/-- `compareImages`: equal dimensions and exact per-pixel equality of the
three color channels (alpha discarded), pixels addressed relative to each
image's bounds minimum. -/
def compareImages (img1 img2 : Img) : Bool :=
  if img1.w = img2.w ∧ img1.h = img2.h then
    (List.range img1.w).all fun x : Nat =>
      (List.range img1.h).all fun y : Nat =>
        (img1.px (img1.minX + (x : Int)) (img1.minY + (y : Int))).r ==
            (img2.px (img2.minX + (x : Int)) (img2.minY + (y : Int))).r &&
          (img1.px (img1.minX + (x : Int)) (img1.minY + (y : Int))).g ==
            (img2.px (img2.minX + (x : Int)) (img2.minY + (y : Int))).g &&
          (img1.px (img1.minX + (x : Int)) (img1.minY + (y : Int))).b ==
            (img2.px (img2.minX + (x : Int)) (img2.minY + (y : Int))).b
  else false

/-- `compareImagesMonochrome`: equal dimensions and agreement of the
white/non-white classification at every pixel. -/
def compareImagesMonochrome (img1 img2 : Img) : Bool :=
  if img1.w = img2.w ∧ img1.h = img2.h then
    (List.range img1.w).all fun x : Nat =>
      (List.range img1.h).all fun y : Nat =>
        isWhite (img1.px (img1.minX + (x : Int)) (img1.minY + (y : Int))) ==
          isWhite (img2.px (img2.minX + (x : Int)) (img2.minY + (y : Int)))
  else false

/-- `source` (vision.go): a named pixel or rectangle to sample, plus the names
of the references it may be compared against. -/
structure source where
  Name : String
  Src : List Int
  Refs : List String
deriving DecidableEq

/-- `reference` (vision.go): a named reference spec string. -/
structure reference where
  Name : String
  Ref : String
deriving DecidableEq

/-- `matcher` (vision.go): the configuration loaded from the JSON document. -/
structure matcher where
  Srcs : List source
  Refs : List reference
deriving DecidableEq

/-- The external collaborators consumed by `Match`: `loadImage` (file loader
plus `png.Decode`, `none` on any failure), the `gosseract` OCR engine, and
`resize.Resize` with preserved aspect ratio. -/
structure Collab where
  loadImg : String → Option Img
  ocr : Img → String
  resize : Nat → Img → Img

/-- `matcher.findSource`: first source with the requested name, if any. -/
def findSource (m : matcher) (srcName : String) : Option source :=
  m.Srcs.find? fun s => s.Name == srcName

/-- `image.Rect(x0, y0, x1, y1)`: a rectangle with the coordinate pairs
swapped into canonical order when necessary. -/
structure Rect where
  x0 : Int
  y0 : Int
  x1 : Int
  y1 : Int

/-- `image.Rect` canonicalization. -/
def mkRect (x0 y0 x1 y1 : Int) : Rect :=
  ⟨min x0 x1, min y0 y1, max x0 x1, max y0 y1⟩

/-- `SubImage`: intersect the requested rectangle with the image bounds and
share the pixel data; an empty intersection yields the zero image (whose
`At` returns the zero color). -/
def subImage (img : Img) (r : Rect) : Img :=
  if max r.x0 img.minX < min r.x1 (img.minX + img.w) ∧
      max r.y0 img.minY < min r.y1 (img.minY + img.h) then
    { minX := max r.x0 img.minX
      minY := max r.y0 img.minY
      w := (min r.x1 (img.minX + img.w) - max r.x0 img.minX).toNat
      h := (min r.y1 (img.minY + img.h) - max r.y0 img.minY).toNat
      px := img.px }
  else emptyImg

/-- `handleColor`: exact HTML-color comparison.  The length guard admits only
13-character refs (`"color:" ++ 7`); the 6 characters after position 7 are
hex-decoded (the character at position 6 is sliced away unchecked), and the
pixel's three channels, right-shifted to 8 bits, are compared for exact
equality.  Alpha is discarded. -/
def handleColor (r : reference) (srcColor : Rgba) : String :=
  if r.Ref.length = 13 then
    match hexDecode (strDrop r.Ref 7) with
    | some (b0 :: b1 :: b2 :: _) =>
      if srcColor.r / 256 == b0 && srcColor.g / 256 == b1 && srcColor.b / 256 == b2 then
        r.Name
      else ""
    | _ => ""
  else ""

/-- Strip of the regexp `[ \n]` done at the end of `handleOCR`. -/
def stripSpaceNewline (s : String) : String :=
  String.mk (s.data.filter fun ch => !(ch == ' ' || ch == '\n'))

/-- `handleOCR`: positional comma-separated arguments, of which only
position 0 (the target width) is interpreted — an empty width means no
resize, a malformed width is a fatal per-reference error, a positive width
resizes before recognition.  The recognized text is returned after removing
spaces and newlines; the digit/letter substitution and lowercasing present
in older revisions are commented out in the source and therefore absent
here. -/
def handleOCR (c : Collab) (srcImg : Img) (args : String) : String :=
  if ((splitComma args.data).headD []).length = 0 then
    stripSpaceNewline (c.ocr srcImg)
  else
    match goAtoiChars ((splitComma args.data).headD []) with
    | none => ""
    | some w =>
      stripSpaceNewline (c.ocr (if 0 < w then c.resize w.toNat srcImg else srcImg))

/-- `handleImage`: extract the file name from an `image:` or `imageM:` spec
(any other `image...` spec leaves the file name at its zero value `""`),
load the reference bitmap, and compare — monochrome for `imageM:`, exact
otherwise.  A load failure returns no-match. -/
def handleImage (c : Collab) (r : reference) (srcImg : Img) : String :=
  match c.loadImg
      (if strStartsWith r.Ref "image:" then strDrop r.Ref 6
       else if strStartsWith r.Ref "imageM:" then strDrop r.Ref 7
       else "") with
  | none => ""
  | some refImg =>
    if strStartsWith r.Ref "imageM:" then
      if compareImagesMonochrome refImg srcImg then r.Name else ""
    else
      if compareImages refImg srcImg then r.Name else ""

/-- The `r.Ref[4:]` argument extraction performed by `Match` before calling
`handleOCR`. -/
def ocrArgs (ref : String) : String :=
  if 4 < ref.length then strDrop ref 4 else ""

/-- The reference loop of `matcher.Match`: skip references not named by the
source, dispatch on the spec tag, return the first nonempty match, and abort
the whole call (empty result) on a source/reference kind mismatch or an
unrecognized tag. -/
def matchRefs (c : Collab) (s : source) (isPixel : Bool) (srcColor : Rgba)
    (srcImg : Img) : List reference → String
  | [] => ""
  | r :: rest =>
    if s.Refs.contains r.Name then
      if strStartsWith r.Ref "color:" then
        if isPixel then
          if (handleColor r srcColor).length ≠ 0 then handleColor r srcColor
          else matchRefs c s isPixel srcColor srcImg rest
        else ""
      else if strStartsWith r.Ref "ocr:" then
        if isPixel then ""
        else
          if (handleOCR c srcImg (ocrArgs r.Ref)).length ≠ 0 then
            handleOCR c srcImg (ocrArgs r.Ref)
          else matchRefs c s isPixel srcColor srcImg rest
      else if strStartsWith r.Ref "image" then
        if isPixel then ""
        else
          if (handleImage c r srcImg).length ≠ 0 then handleImage c r srcImg
          else matchRefs c s isPixel srcColor srcImg rest
      else ""
    else matchRefs c s isPixel srcColor srcImg rest

/-- The geometry dispatch of `matcher.Match` (the `switch len(s.Src)`): a
2-element geometry samples one pixel, a 4-element geometry grabs the
sub-image, anything else is an illegal source and yields no match.  The
unused sample slot is passed as a zero value, mirroring Go's nil values
that are never dereferenced. -/
def matchSrc (c : Collab) (s : source) (refs : List reference) (img : Img) : String :=
  match s.Src with
  | [x, y] => matchRefs c s true (img.px x y) emptyImg refs
  | [x, y, w, h] =>
    matchRefs c s false ⟨0, 0, 0, 0⟩
      (subImage img (mkRect x y (x + w) (y + h))) refs
  | _ => ""

/-- `matcher.Match`: resolve the source (an unknown name gives an empty
result), then dispatch on the geometry and run the reference loop. -/
def Match (c : Collab) (m : matcher) (srcName : String) (img : Img) : String :=
  match findSource m srcName with
  | none => ""
  | some s => matchSrc c s m.Refs img

/-! ### Helper lemmas -/

theorem beqBool_comm (x y : Bool) : (x == y) = (y == x) := by
  cases x <;> cases y <;> rfl

/-- `compareImages` depends only on the dimensions and on the pixels sampled
at offsets `(i, j)` from each image's bounds minimum. -/
theorem compareImages_congr (a a' b b' : Img)
    (haw : a.w = a'.w) (hah : a.h = a'.h) (hbw : b.w = b'.w) (hbh : b.h = b'.h)
    (hpa : ∀ i j : Nat,
      a.px (a.minX + (i : Int)) (a.minY + (j : Int)) =
        a'.px (a'.minX + (i : Int)) (a'.minY + (j : Int)))
    (hpb : ∀ i j : Nat,
      b.px (b.minX + (i : Int)) (b.minY + (j : Int)) =
        b'.px (b'.minX + (i : Int)) (b'.minY + (j : Int))) :
    compareImages a b = compareImages a' b' := by
  unfold compareImages
  rw [haw, hah, hbw, hbh]
  by_cases hc : a'.w = b'.w ∧ a'.h = b'.h
  · rw [if_pos hc, if_pos hc]
    apply congrArg
    funext x
    apply congrArg
    funext y
    rw [hpa x y, hpb x y]
  · rw [if_neg hc, if_neg hc]

/-- `compareImagesMonochrome` depends only on the dimensions and on the
whiteness of the pixels sampled at offsets from each bounds minimum. -/
theorem compareImagesMonochrome_congr (a a' b b' : Img)
    (haw : a.w = a'.w) (hah : a.h = a'.h) (hbw : b.w = b'.w) (hbh : b.h = b'.h)
    (hpa : ∀ i j : Nat,
      isWhite (a.px (a.minX + (i : Int)) (a.minY + (j : Int))) =
        isWhite (a'.px (a'.minX + (i : Int)) (a'.minY + (j : Int))))
    (hpb : ∀ i j : Nat,
      isWhite (b.px (b.minX + (i : Int)) (b.minY + (j : Int))) =
        isWhite (b'.px (b'.minX + (i : Int)) (b'.minY + (j : Int)))) :
    compareImagesMonochrome a b = compareImagesMonochrome a' b' := by
  unfold compareImagesMonochrome
  rw [haw, hah, hbw, hbh]
  by_cases hc : a'.w = b'.w ∧ a'.h = b'.h
  · rw [if_pos hc, if_pos hc]
    apply congrArg
    funext x
    apply congrArg
    funext y
    rw [hpa x y, hpb x y]
  · rw [if_neg hc, if_neg hc]

/-! ### Sample images used by the witnesses -/

/-- A 1×1 all-white image. -/
def imgWhite : Img :=
  ⟨0, 0, 1, 1, fun _ _ => ⟨65535, 65535, 65535, 65535⟩⟩

/-- A 1×1 all-black image. -/
def imgBlack : Img :=
  ⟨0, 0, 1, 1, fun _ _ => ⟨0, 0, 0, 65535⟩⟩

/-- A 2×1 all-black image (different dimensions from the 1×1 samples). -/
def imgBlackWide : Img :=
  ⟨0, 0, 2, 1, fun _ _ => ⟨0, 0, 0, 65535⟩⟩

/-! ### Claims -/

/-- Claim C6: `compareImages` is reflexive, and it returns `false` whenever
the two images' widths or heights differ. -/
theorem c6_compareImages_refl_dims :
    (∀ a : Img, compareImages a a = true) ∧
      (∀ a b : Img, a.w ≠ b.w ∨ a.h ≠ b.h → compareImages a b = false) := by
  constructor
  · intro a
    unfold compareImages
    rw [if_pos ⟨rfl, rfl⟩]
    simp [List.all_eq_true]
  · intro a b h
    unfold compareImages
    rw [if_neg]
    intro hc
    rcases h with h | h
    · exact h hc.1
    · exact h hc.2

/-- Claim C6 witness: reflexivity at the 1×1 white image, and a `false`
result at a concrete dimension mismatch. -/
theorem c6_witness :
    compareImages imgWhite imgWhite = true ∧
      (imgWhite.w ≠ imgBlackWide.w ∨ imgWhite.h ≠ imgBlackWide.h) ∧
      compareImages imgWhite imgBlackWide = false :=
  ⟨c6_compareImages_refl_dims.1 imgWhite, Or.inl (by decide),
    c6_compareImages_refl_dims.2 imgWhite imgBlackWide (Or.inl (by decide))⟩

/-- Claim C7: `compareImagesMonochrome` is symmetric on images of equal
dimensions. -/
theorem c7_monochrome_symm (a b : Img) (hw : a.w = b.w) (hh : a.h = b.h) :
    compareImagesMonochrome a b = compareImagesMonochrome b a := by
  unfold compareImagesMonochrome
  rw [hw, hh]
  rw [if_pos ⟨rfl, rfl⟩, if_pos ⟨rfl, rfl⟩]
  apply congrArg
  funext x
  apply congrArg
  funext y
  exact beqBool_comm _ _

/-- Claim C7 witness: symmetry at a concrete equal-dimension pair. -/
theorem c7_witness :
    imgWhite.w = imgBlack.w ∧ imgWhite.h = imgBlack.h ∧
      compareImagesMonochrome imgWhite imgBlack =
        compareImagesMonochrome imgBlack imgWhite :=
  ⟨rfl, rfl, c7_monochrome_symm imgWhite imgBlack rfl rfl⟩

/-- Claim C10: both image comparisons are translation-invariant — shifting
either image's bounds while carrying its pixel content along (so that pixels
agree at corresponding offsets from the respective origins) never changes
the result. -/
theorem c10_translation_invariant (a b : Img) (dx dy dx' dy' : Int) :
    compareImages (translate a dx dy) (translate b dx' dy') = compareImages a b ∧
      compareImagesMonochrome (translate a dx dy) (translate b dx' dy') =
        compareImagesMonochrome a b := by
  have hpa : ∀ (img : Img) (dx dy : Int) (i j : Nat),
      (translate img dx dy).px ((translate img dx dy).minX + (i : Int))
          ((translate img dx dy).minY + (j : Int)) =
        img.px (img.minX + (i : Int)) (img.minY + (j : Int)) := by
    intro img dx dy i j
    show img.px (img.minX + dx + (i : Int) - dx) (img.minY + dy + (j : Int) - dy) =
      img.px (img.minX + (i : Int)) (img.minY + (j : Int))
    have h1 : img.minX + dx + (i : Int) - dx = img.minX + (i : Int) := by ring
    have h2 : img.minY + dy + (j : Int) - dy = img.minY + (j : Int) := by ring
    rw [h1, h2]
  constructor
  · exact compareImages_congr _ a _ b rfl rfl rfl rfl
      (hpa a dx dy) (hpa b dx' dy')
  · exact compareImagesMonochrome_congr _ a _ b rfl rfl rfl rfl
      (fun i j => congrArg isWhite (hpa a dx dy i j))
      (fun i j => congrArg isWhite (hpa b dx' dy' i j))

/-- Claim C5: the monochrome comparison classifies a pixel as white exactly
when all three channels carry the maximal 16-bit value, and replacing any
pixel of either image by a color on the same side of the white/non-white
boundary leaves the comparison result unchanged. -/
theorem c5_monochrome_boundary :
    (∀ p : Rgba, isWhite p = true ↔ p.r = 65535 ∧ p.g = 65535 ∧ p.b = 65535) ∧
      (∀ (a b : Img) (x y : Int) (c : Rgba), a.w = b.w → a.h = b.h →
        isWhite c = isWhite (a.px x y) →
        compareImagesMonochrome (setPx a x y c) b = compareImagesMonochrome a b) ∧
      (∀ (a b : Img) (x y : Int) (c : Rgba), a.w = b.w → a.h = b.h →
        isWhite c = isWhite (b.px x y) →
        compareImagesMonochrome a (setPx b x y c) = compareImagesMonochrome a b) := by
  have hset : ∀ (img : Img) (x y : Int) (c : Rgba),
      isWhite c = isWhite (img.px x y) →
      ∀ i j : Nat,
        isWhite ((setPx img x y c).px ((setPx img x y c).minX + (i : Int))
            ((setPx img x y c).minY + (j : Int))) =
          isWhite (img.px (img.minX + (i : Int)) (img.minY + (j : Int))) := by
    intro img x y c hc i j
    show isWhite (if img.minX + (i : Int) = x ∧ img.minY + (j : Int) = y then c
        else img.px (img.minX + (i : Int)) (img.minY + (j : Int))) =
      isWhite (img.px (img.minX + (i : Int)) (img.minY + (j : Int)))
    by_cases hxy : img.minX + (i : Int) = x ∧ img.minY + (j : Int) = y
    · rw [if_pos hxy, hxy.1, hxy.2, hc]
    · rw [if_neg hxy]
  refine ⟨?_, ?_, ?_⟩
  · intro p
    unfold isWhite
    simp [Bool.and_eq_true, and_assoc]
  · intro a b x y c hw hh hc
    exact compareImagesMonochrome_congr _ a b b rfl rfl rfl rfl
      (hset a x y c hc) (fun _ _ => rfl)
  · intro a b x y c hw hh hc
    exact compareImagesMonochrome_congr a a _ b rfl rfl rfl rfl
      (fun _ _ => rfl) (hset b x y c hc)

/-- Claim C5 witness: swapping the white pixel of the 1×1 white image for a
white pixel with a different alpha leaves the comparison unchanged. -/
theorem c5_witness :
    imgWhite.w = imgWhite.w ∧ imgWhite.h = imgWhite.h ∧
      isWhite ⟨65535, 65535, 65535, 0⟩ = isWhite (imgWhite.px 0 0) ∧
      compareImagesMonochrome (setPx imgWhite 0 0 ⟨65535, 65535, 65535, 0⟩) imgWhite =
        compareImagesMonochrome imgWhite imgWhite :=
  ⟨rfl, rfl, by decide,
    c5_monochrome_boundary.2.1 imgWhite imgWhite 0 0 ⟨65535, 65535, 65535, 0⟩
      rfl rfl (by decide)⟩

/-- A hex string containing a character that is not a hex digit never
decodes. -/
theorem hexDecodeChars_none_of_bad :
    ∀ l : List Char, (∃ ch, ch ∈ l ∧ hexDigitVal ch = none) → hexDecodeChars l = none
  | [], h => by simp at h
  | [_], _ => rfl
  | c1 :: c2 :: rest, h => by
    obtain ⟨ch, hmem, hbad⟩ := h
    unfold hexDecodeChars
    rcases List.mem_cons.mp hmem with h1 | hmem2
    · subst h1
      rw [hbad]
    · rcases List.mem_cons.mp hmem2 with h2 | hmem3
      · subst h2
        rw [hbad]
        cases hexDigitVal c1 <;> cases hexDecodeChars rest <;> rfl
      · rw [hexDecodeChars_none_of_bad rest ⟨ch, hmem3, hbad⟩]
        cases hexDigitVal c1 <;> cases hexDigitVal c2 <;> rfl

/-- Claim C4: `handleColor` is total and returns no-match on every malformed
`color:` reference — wrong length (remainder not exactly 7 characters, i.e.
total length not 13) or a non-hex character among the 6 characters after the
`#` position. -/
theorem c4_malformed_color (r : reference) (col : Rgba)
    (_hpre : strStartsWith r.Ref "color:" = true)
    (hbad : r.Ref.length ≠ 13 ∨
      ∃ ch, ch ∈ (strDrop r.Ref 7).data ∧ hexDigitVal ch = none) :
    handleColor r col = "" := by
  unfold handleColor
  rcases hbad with h | h
  · rw [if_neg h]
  · by_cases hlen : r.Ref.length = 13
    · rw [if_pos hlen]
      have hdec : hexDecode (strDrop r.Ref 7) = none :=
        hexDecodeChars_none_of_bad _ h
      rw [hdec]
    · rw [if_neg hlen]

/-- Claim C4 witness: a wrong-length color spec and a non-hex color spec both
yield no-match at a concrete pixel. -/
theorem c4_witness :
    (strStartsWith "color:#12345" "color:" = true ∧
      (("color:#12345" : String).length ≠ 13 ∨
        ∃ ch, ch ∈ (strDrop "color:#12345" 7).data ∧ hexDigitVal ch = none) ∧
      handleColor ⟨"bad", "color:#12345"⟩ ⟨0, 0, 0, 0⟩ = "") ∧
      (strStartsWith "color:#4268fg" "color:" = true ∧
        handleColor ⟨"bad2", "color:#4268fg"⟩ ⟨0, 0, 0, 0⟩ = "") :=
  ⟨⟨by decide, Or.inl (by decide),
      c4_malformed_color ⟨"bad", "color:#12345"⟩ ⟨0, 0, 0, 0⟩ (by decide)
        (Or.inl (by decide))⟩,
    ⟨by decide,
      c4_malformed_color ⟨"bad2", "color:#4268fg"⟩ ⟨0, 0, 0, 0⟩ (by decide)
        (Or.inr ⟨'g', by decide, by decide⟩)⟩⟩

/-- On a 13-character reference whose tail hex-decodes, `handleColor` is the
exact three-channel equality test. -/
theorem handleColor_eq (r : reference) (col : Rgba) (b0 b1 b2 : Nat)
    (hlen : r.Ref.length = 13)
    (hdec : hexDecode (strDrop r.Ref 7) = some [b0, b1, b2]) :
    handleColor r col =
      if col.r / 256 = b0 ∧ col.g / 256 = b1 ∧ col.b / 256 = b2 then r.Name
      else "" := by
  unfold handleColor
  rw [if_pos hlen, hdec]
  by_cases h0 : col.r / 256 = b0 <;> by_cases h1 : col.g / 256 = b1 <;>
    by_cases h2 : col.b / 256 = b2 <;> simp [h0, h1, h2]

/-- Claim C3: on a well-formed color reference, `handleColor` returns the
reference's name exactly when all three 8-bit-reduced channels equal the
decoded bytes, with alpha ignored; `"color:#FFFFFF"` matches the pixel
`(255, 255, 255, *)` for every alpha and `"color:#FFFFFE"` does not. -/
theorem c3_color_equality :
    (∀ (r : reference) (col : Rgba) (b0 b1 b2 : Nat),
        r.Ref.length = 13 →
        hexDecode (strDrop r.Ref 7) = some [b0, b1, b2] →
        handleColor r col =
          if col.r / 256 = b0 ∧ col.g / 256 = b1 ∧ col.b / 256 = b2 then r.Name
          else "") ∧
      (∀ a : Nat,
        handleColor ⟨"white", "color:#FFFFFF"⟩ (rgba8 255 255 255 a) = "white" ∧
          handleColor ⟨"offwhite", "color:#FFFFFE"⟩ (rgba8 255 255 255 a) = "") := by
  refine ⟨handleColor_eq, ?_⟩
  intro a
  constructor
  · have hr : (rgba8 255 255 255 a).r / 256 = 255 := by
      show (257 * 255 : Nat) / 256 = 255
      norm_num
    have hg : (rgba8 255 255 255 a).g / 256 = 255 := by
      show (257 * 255 : Nat) / 256 = 255
      norm_num
    have hb : (rgba8 255 255 255 a).b / 256 = 255 := by
      show (257 * 255 : Nat) / 256 = 255
      norm_num
    rw [handleColor_eq _ _ 255 255 255 (by decide) (by decide),
      if_pos (And.intro hr (And.intro hg hb))]
  · have hne : ¬((rgba8 255 255 255 a).r / 256 = 255 ∧
        (rgba8 255 255 255 a).g / 256 = 255 ∧ (rgba8 255 255 255 a).b / 256 = 254) := by
      intro hcon
      have hb : (257 * 255 : Nat) / 256 = 254 := hcon.2.2
      norm_num at hb
    rw [handleColor_eq _ _ 255 255 254 (by decide) (by decide), if_neg hne]

/-- Claim C3 witness: the general equality test instantiated at the
`"color:#FFFFFF"` reference and a white pixel with a nonzero alpha. -/
theorem c3_witness :
    ("color:#FFFFFF" : String).length = 13 ∧
      hexDecode (strDrop "color:#FFFFFF" 7) = some [255, 255, 255] ∧
      handleColor ⟨"white", "color:#FFFFFF"⟩ (rgba8 255 255 255 9) =
        (if (rgba8 255 255 255 9).r / 256 = 255 ∧ (rgba8 255 255 255 9).g / 256 = 255 ∧
            (rgba8 255 255 255 9).b / 256 = 255 then "white" else "") :=
  ⟨by decide, by decide,
    c3_color_equality.1 ⟨"white", "color:#FFFFFF"⟩ (rgba8 255 255 255 9)
      255 255 255 (by decide) (by decide)⟩

/-- A collaborator whose OCR engine recognizes the raw text `"RUNN1NGS"` on
every input image (resizing is the identity, so the raw text is what the OCR
collaborator returns for the sampled region). -/
def ocrRunn1ngs : Collab :=
  ⟨fun _ => none, fun _ => "RUNN1NGS", fun _ img => img⟩

/-- Claim C1 counterexample: with the alphabetic mode flag (second
comma-separated argument `"y"`), the raw OCR text `"RUNN1NGS"` is returned
with only spaces and newlines stripped — it does **not** normalize to
`"runnings"`, because the digit-to-letter substitution (and the lowercasing)
is commented out in `handleOCR`. -/
theorem c1_counterexample :
    handleOCR ocrRunn1ngs emptyImg ",y" = "RUNN1NGS" ∧
      handleOCR ocrRunn1ngs emptyImg ",y" ≠ "runnings" := by
  constructor <;> decide

/-- Claim C1 (amended): for every raw string returned by the OCR
collaborator and every argument string whose width field (the text before
the first comma) is empty or parses as an integer, `handleOCR` returns the
raw text with all space and newline characters stripped and performs no
other transformation — the mode flag in the second comma-separated argument
is ignored (the digit/letter substitutions are commented out in the
source). -/
theorem c1_ocr_strip_only (li : String → Option Img) (rz : Nat → Img → Img)
    (raw : String) (img : Img) (args : String)
    (h : (splitComma args.data).headD [] = [] ∨
      ∃ n, goAtoiChars ((splitComma args.data).headD []) = some n) :
    handleOCR ⟨li, fun _ => raw, rz⟩ img args = stripSpaceNewline raw := by
  unfold handleOCR
  rcases h with h | ⟨n, hn⟩
  · rw [h]
    rfl
  · by_cases hw : ((splitComma args.data).headD []).length = 0
    · rw [if_pos hw]
    · rw [if_neg hw, hn]

/-- Claim C1 witness: the amended statement at the raw text `"RUNN1NGS"`
with the alphabetic mode flag. -/
theorem c1_witness :
    ((splitComma (",y" : String).data).headD [] = [] ∨
      ∃ n, goAtoiChars ((splitComma (",y" : String).data).headD []) = some n) ∧
      handleOCR ⟨fun _ => none, fun _ => "RUNN1NGS", fun _ img => img⟩ emptyImg ",y" =
        stripSpaceNewline "RUNN1NGS" :=
  ⟨Or.inl (by decide),
    c1_ocr_strip_only (fun _ => none) (fun _ img => img) "RUNN1NGS" emptyImg ",y"
      (Or.inl (by decide))⟩

/-! ### Spec-tag disjointness and `Match` unfolding helpers -/

theorem startsWith_ocr_not_color (s : String) (h : strStartsWith s "ocr:" = true) :
    strStartsWith s "color:" = false := by
  obtain ⟨data⟩ := s
  cases data with
  | nil => exact absurd h (by decide)
  | cons c cs =>
    have h' : (c == 'o' && listStartsWith cs ['c', 'r', ':']) = true := h
    have hc : c = 'o' := eq_of_beq ((Bool.and_eq_true _ _).mp h').1
    subst hc
    rfl

theorem startsWith_image_not_color (s : String) (h : strStartsWith s "image" = true) :
    strStartsWith s "color:" = false := by
  obtain ⟨data⟩ := s
  cases data with
  | nil => exact absurd h (by decide)
  | cons c cs =>
    have h' : (c == 'i' && listStartsWith cs ['m', 'a', 'g', 'e']) = true := h
    have hc : c = 'i' := eq_of_beq ((Bool.and_eq_true _ _).mp h').1
    subst hc
    rfl

theorem startsWith_image_not_ocr (s : String) (h : strStartsWith s "image" = true) :
    strStartsWith s "ocr:" = false := by
  obtain ⟨data⟩ := s
  cases data with
  | nil => exact absurd h (by decide)
  | cons c cs =>
    have h' : (c == 'i' && listStartsWith cs ['m', 'a', 'g', 'e']) = true := h
    have hc : c = 'i' := eq_of_beq ((Bool.and_eq_true _ _).mp h').1
    subst hc
    rfl

/-- A `color:` reference reached by the loop while the source is a region
aborts the call. -/
theorem matchRefs_color_mismatch (c : Collab) (s : source) (srcColor : Rgba)
    (srcImg : Img) (r : reference) (rest : List reference)
    (hin : s.Refs.contains r.Name = true)
    (hcol : strStartsWith r.Ref "color:" = true) :
    matchRefs c s false srcColor srcImg (r :: rest) = "" := by
  have hin' : r.Name ∈ s.Refs := by simpa using hin
  simp [matchRefs, hin', hcol]

/-- An `ocr:` or `image`-tagged reference reached by the loop while the
source is a pixel aborts the call. -/
theorem matchRefs_pixel_mismatch (c : Collab) (s : source) (srcColor : Rgba)
    (srcImg : Img) (r : reference) (rest : List reference)
    (hin : s.Refs.contains r.Name = true)
    (h : strStartsWith r.Ref "ocr:" = true ∨ strStartsWith r.Ref "image" = true) :
    matchRefs c s true srcColor srcImg (r :: rest) = "" := by
  have hin' : r.Name ∈ s.Refs := by simpa using hin
  rcases h with h | h
  · simp [matchRefs, hin', startsWith_ocr_not_color r.Ref h, h]
  · simp [matchRefs, hin', startsWith_image_not_color r.Ref h,
      startsWith_image_not_ocr r.Ref h, h]

/-- `Match` on a resolved 4-element (region) source runs the reference loop
on the sub-image. -/
theorem Match_region (c : Collab) (m : matcher) (srcName : String) (img : Img)
    (s : source) (x y w h : Int)
    (hf : findSource m srcName = some s) (hs : s.Src = [x, y, w, h]) :
    Match c m srcName img =
      matchRefs c s false ⟨0, 0, 0, 0⟩
        (subImage img (mkRect x y (x + w) (y + h))) m.Refs := by
  unfold Match
  rw [hf]
  show matchSrc c s m.Refs img = _
  unfold matchSrc
  rw [hs]

/-- `Match` on a resolved 2-element (pixel) source runs the reference loop
on the sampled pixel. -/
theorem Match_pixel (c : Collab) (m : matcher) (srcName : String) (img : Img)
    (s : source) (x y : Int)
    (hf : findSource m srcName = some s) (hs : s.Src = [x, y]) :
    Match c m srcName img = matchRefs c s true (img.px x y) emptyImg m.Refs := by
  unfold Match
  rw [hf]
  show matchSrc c s m.Refs img = _
  unfold matchSrc
  rw [hs]

/-! ### Witness fixtures for the matching engine -/

/-- A collaborator whose loads all fail and whose OCR returns empty text. -/
def collabNone : Collab :=
  ⟨fun _ => none, fun _ => "", fun _ img => img⟩

def refColorW : reference := ⟨"refC", "color:#FFFFFF"⟩

def refOcrW : reference := ⟨"refO", "ocr:200,y"⟩

def refImageXW : reference := ⟨"refX", "imageX.png"⟩

def refBogusW : reference := ⟨"refB", "bogus:x"⟩

def srcRegionW : source := ⟨"sR", [0, 0, 1, 1], ["refC"]⟩

def srcPixelW : source := ⟨"sP", [0, 0], ["refO"]⟩

def srcRegionXW : source := ⟨"sX", [0, 0, 1, 1], ["refX", "refC", "refB"]⟩

def mRegionW : matcher := ⟨[srcRegionW], [refColorW]⟩

def mPixelW : matcher := ⟨[srcPixelW], [refOcrW]⟩

/-- Claim C2: a region source reaching a `color:` reference, or a pixel
source reaching an `ocr:`- or `image`-tagged reference, aborts the whole
`Match` call with an empty result, irrespective of any later references. -/
theorem c2_kind_mismatch_aborts :
    (∀ (c : Collab) (s : source) (srcColor : Rgba) (srcImg : Img)
        (r : reference) (rest : List reference),
        s.Refs.contains r.Name = true → strStartsWith r.Ref "color:" = true →
        matchRefs c s false srcColor srcImg (r :: rest) = "") ∧
      (∀ (c : Collab) (s : source) (srcColor : Rgba) (srcImg : Img)
        (r : reference) (rest : List reference),
        s.Refs.contains r.Name = true →
        (strStartsWith r.Ref "ocr:" = true ∨ strStartsWith r.Ref "image" = true) →
        matchRefs c s true srcColor srcImg (r :: rest) = "") ∧
      (∀ (c : Collab) (m : matcher) (srcName : String) (img : Img) (s : source)
        (x y w h : Int) (r : reference) (rest : List reference),
        findSource m srcName = some s → s.Src = [x, y, w, h] →
        m.Refs = r :: rest → s.Refs.contains r.Name = true →
        strStartsWith r.Ref "color:" = true →
        Match c m srcName img = "") ∧
      (∀ (c : Collab) (m : matcher) (srcName : String) (img : Img) (s : source)
        (x y : Int) (r : reference) (rest : List reference),
        findSource m srcName = some s → s.Src = [x, y] →
        m.Refs = r :: rest → s.Refs.contains r.Name = true →
        (strStartsWith r.Ref "ocr:" = true ∨ strStartsWith r.Ref "image" = true) →
        Match c m srcName img = "") := by
  refine ⟨matchRefs_color_mismatch, matchRefs_pixel_mismatch, ?_, ?_⟩
  · intro c m srcName img s x y w h r rest hf hs hr hin hcol
    rw [Match_region c m srcName img s x y w h hf hs, hr]
    exact matchRefs_color_mismatch c s _ _ r rest hin hcol
  · intro c m srcName img s x y r rest hf hs hr hin hker
    rw [Match_pixel c m srcName img s x y hf hs, hr]
    exact matchRefs_pixel_mismatch c s _ _ r rest hin hker

/-- Claim C2 witness: the abort at a concrete region/color and pixel/ocr
configuration. -/
theorem c2_witness :
    (srcRegionW.Refs.contains refColorW.Name = true ∧
      strStartsWith refColorW.Ref "color:" = true ∧
      matchRefs collabNone srcRegionW false ⟨0, 0, 0, 0⟩ imgWhite [refColorW] = "") ∧
      (findSource mRegionW "sR" = some srcRegionW ∧ srcRegionW.Src = [0, 0, 1, 1] ∧
        mRegionW.Refs = [refColorW] ∧ Match collabNone mRegionW "sR" imgWhite = "") ∧
      (findSource mPixelW "sP" = some srcPixelW ∧ srcPixelW.Src = [0, 0] ∧
        mPixelW.Refs = [refOcrW] ∧ strStartsWith refOcrW.Ref "ocr:" = true ∧
        Match collabNone mPixelW "sP" imgWhite = "") :=
  ⟨⟨by decide, by decide,
      c2_kind_mismatch_aborts.1 collabNone srcRegionW ⟨0, 0, 0, 0⟩ imgWhite
        refColorW [] (by decide) (by decide)⟩,
    ⟨by decide, by decide, rfl,
      c2_kind_mismatch_aborts.2.2.1 collabNone mRegionW "sR" imgWhite srcRegionW
        0 0 1 1 refColorW [] (by decide) (by decide) rfl (by decide) (by decide)⟩,
    ⟨by decide, by decide, rfl, by decide,
      c2_kind_mismatch_aborts.2.2.2 collabNone mPixelW "sP" imgWhite srcPixelW
        0 0 refOcrW [] (by decide) (by decide) rfl (by decide)
        (Or.inl (by decide))⟩⟩

/-- Claim C8: a source name absent from the `Srcs` collection makes `Match`
return the empty string rather than fail. -/
theorem c8_unknown_source (c : Collab) (m : matcher) (srcName : String)
    (img : Img) (h : ∀ s ∈ m.Srcs, s.Name ≠ srcName) :
    Match c m srcName img = "" := by
  have hf : findSource m srcName = none := by
    unfold findSource
    rw [List.find?_eq_none]
    intro s hs hbeq
    exact h s hs (eq_of_beq hbeq)
  unfold Match
  rw [hf]

/-- Claim C8 witness: `Match "noSuchSource"` returns the empty string on a
concrete configuration and screen image. -/
theorem c8_witness :
    (∀ s ∈ mRegionW.Srcs, s.Name ≠ "noSuchSource") ∧
      Match collabNone mRegionW "noSuchSource" imgWhite = "" :=
  ⟨by decide,
    c8_unknown_source collabNone mRegionW "noSuchSource" imgWhite (by decide)⟩

/-- An `image...` reference that is neither `image:` nor `imageM:` leaves
the file name empty; when loading `""` fails, `handleImage` returns
no-match. -/
theorem handleImage_bad_tag (c : Collab) (r : reference) (srcImg : Img)
    (h1 : strStartsWith r.Ref "image:" = false)
    (h2 : strStartsWith r.Ref "imageM:" = false)
    (h3 : c.loadImg "" = none) :
    handleImage c r srcImg = "" := by
  simp [handleImage, h1, h2, h3]

/-- Claim C9: an `image`-tagged reference matching neither `image:` nor
`imageM:` exactly falls through with an empty file name; with the load of
`""` failing, `handleImage` returns the empty string and the reference loop
continues with the remaining references — unlike a fully unrecognized tag,
which aborts the call. -/
theorem c9_malformed_image_tag :
    (∀ (c : Collab) (r : reference) (srcImg : Img),
        strStartsWith r.Ref "image" = true →
        strStartsWith r.Ref "image:" = false →
        strStartsWith r.Ref "imageM:" = false →
        c.loadImg "" = none →
        handleImage c r srcImg = "") ∧
      (∀ (c : Collab) (s : source) (srcColor : Rgba) (srcImg : Img)
        (r : reference) (rest : List reference),
        s.Refs.contains r.Name = true →
        strStartsWith r.Ref "image" = true →
        strStartsWith r.Ref "image:" = false →
        strStartsWith r.Ref "imageM:" = false →
        c.loadImg "" = none →
        matchRefs c s false srcColor srcImg (r :: rest) =
          matchRefs c s false srcColor srcImg rest) ∧
      (∀ (c : Collab) (s : source) (srcColor : Rgba) (srcImg : Img)
        (r : reference) (rest : List reference),
        s.Refs.contains r.Name = true →
        strStartsWith r.Ref "color:" = false →
        strStartsWith r.Ref "ocr:" = false →
        strStartsWith r.Ref "image" = false →
        matchRefs c s false srcColor srcImg (r :: rest) = "") := by
  refine ⟨?_, ?_, ?_⟩
  · intro c r srcImg _hi h1 h2 h3
    exact handleImage_bad_tag c r srcImg h1 h2 h3
  · intro c s srcColor srcImg r rest hin hi h1 h2 h3
    have hin' : r.Name ∈ s.Refs := by simpa using hin
    have hbad : handleImage c r srcImg = "" := handleImage_bad_tag c r srcImg h1 h2 h3
    simp [matchRefs, hin', startsWith_image_not_color r.Ref hi,
      startsWith_image_not_ocr r.Ref hi, hi, hbad]
  · intro c s srcColor srcImg r rest hin hc ho hi
    have hin' : r.Name ∈ s.Refs := by simpa using hin
    simp [matchRefs, hin', hc, ho, hi]

/-- Claim C9 witness: the `"imageX.png"` reference yields a per-reference
no-match and the loop proceeds to the remaining references, while a
`"bogus:x"` reference aborts. -/
theorem c9_witness :
    (strStartsWith refImageXW.Ref "image" = true ∧
      strStartsWith refImageXW.Ref "image:" = false ∧
      strStartsWith refImageXW.Ref "imageM:" = false ∧
      collabNone.loadImg "" = none ∧
      handleImage collabNone refImageXW imgWhite = "") ∧
      (srcRegionXW.Refs.contains refImageXW.Name = true ∧
        matchRefs collabNone srcRegionXW false ⟨0, 0, 0, 0⟩ imgWhite
            [refImageXW, refColorW] =
          matchRefs collabNone srcRegionXW false ⟨0, 0, 0, 0⟩ imgWhite [refColorW]) ∧
      (srcRegionXW.Refs.contains refBogusW.Name = true ∧
        matchRefs collabNone srcRegionXW false ⟨0, 0, 0, 0⟩ imgWhite [refBogusW] = "") :=
  ⟨⟨by decide, by decide, by decide, rfl,
      c9_malformed_image_tag.1 collabNone refImageXW imgWhite (by decide)
        (by decide) (by decide) rfl⟩,
    ⟨by decide,
      c9_malformed_image_tag.2.1 collabNone srcRegionXW ⟨0, 0, 0, 0⟩ imgWhite
        refImageXW [refColorW] (by decide) (by decide) (by decide) (by decide) rfl⟩,
    ⟨by decide,
      c9_malformed_image_tag.2.2 collabNone srcRegionXW ⟨0, 0, 0, 0⟩ imgWhite
        refBogusW [] (by decide) (by decide) (by decide) (by decide)⟩⟩

end PokerVision
